import Mathlib

/-!
Shallow embedding of the Bandcamp extractor plugin (the page-scraping
resolution pipeline of the DisTune plugins repository).

Strings are modeled as lists of characters.  Network fetches and the
platform URL parser are modeled as explicit oracle functions, and the
observable side effects of an operation (search-endpoint calls, page
fetches, logged per-candidate failures) are returned as explicit traces.
JavaScript semantics that matter to the claims are modeled faithfully:
string falsiness (the empty string is falsy), the strict inequality
between a number and a string (always true), non-integer and non-number
limit arguments, and the global-regex replace used for entity decoding
(left-to-right, non-overlapping, replacements are not rescanned).
-/

namespace Bandcamp

/-- Strings are modeled as lists of characters. -/
abbrev Str := List Char

/-- View a Lean string literal as the character-list model. -/
def strL (s : String) : Str := s.data

/-- The double-quote character. -/
abbrev dq : Char := Char.ofNat 34

/-- The apostrophe character. -/
abbrev apos : Char := Char.ofNat 39

/-- The entity pattern spelling the escaped double quote. -/
abbrev quotPat : Str := '&' :: 'q' :: 'u' :: 'o' :: 't' :: ';' :: []

/-- The entity pattern spelling the escaped ampersand. -/
abbrev ampPat : Str := '&' :: 'a' :: 'm' :: 'p' :: ';' :: []

/-- The entity pattern spelling the escaped less-than sign. -/
abbrev ltPat : Str := '&' :: 'l' :: 't' :: ';' :: []

/-- The entity pattern spelling the escaped greater-than sign. -/
abbrev gtPat : Str := '&' :: 'g' :: 't' :: ';' :: []

/-- The entity pattern spelling the numeric escape of the apostrophe. -/
abbrev aposPat : Str := '&' :: '#' :: '3' :: '9' :: ';' :: []

/-- Fuel-indexed worker for global literal replacement.  It scans left to
right; at a match it emits the replacement and resumes after the matched
span (the replacement is never rescanned), exactly the semantics of the
JavaScript global-regex replace with a literal pattern used by the
plugin.  The fuel argument only makes the recursion structural; it is
always instantiated with the length of the scanned list. -/
def replaceAllF (pat rep : Str) : Nat → Str → Str
  | _, [] => []
  | 0, l => l
  | fuel + 1, c :: rest =>
    if pat.isPrefixOf (c :: rest) && !pat.isEmpty then
      rep ++ replaceAllF pat rep fuel (List.drop (pat.length - 1) rest)
    else
      c :: replaceAllF pat rep fuel rest

/-- Global replacement of every occurrence of a literal pattern, the
model of the JavaScript replace with a global literal regex. -/
def replaceAll (pat rep l : Str) : Str := replaceAllF pat rep l.length l

/-- Entity decoding as written in the source (parseTrackPage,
parseAlbumPage and getRelatedSongs all inline the same five replace
calls, in this order): first the quote entity, then the ampersand
entity, then less-than, then greater-than, then the numeric apostrophe
entity. -/
def entityDecode (s : Str) : Str :=
  replaceAll aposPat (apos :: [])
    (replaceAll gtPat ('>' :: [])
      (replaceAll ltPat ('<' :: [])
        (replaceAll ampPat ('&' :: [])
          (replaceAll quotPat (dq :: []) s))))

/-- Character-wise HTML entity encoding of the five characters the
decoder reverses.  This models the html-encode of the specification (it
is performed by the storefront server, outside this repository): the
ampersand of an inserted entity is never itself re-encoded because
source ampersands are encoded in the same single pass. -/
def encChar (c : Char) : Str :=
  if c = '&' then ampPat
  else if c = dq then quotPat
  else if c = '<' then ltPat
  else if c = '>' then gtPat
  else if c = apos then aposPat
  else [c]

/-- HTML entity encoding of a whole text, character by character. -/
def htmlEncode (x : Str) : Str := x.flatMap encChar

/-- Image of a character after the quote entity has been decoded. -/
def encB (c : Char) : Str :=
  if c = '&' then ampPat
  else if c = '<' then ltPat
  else if c = '>' then gtPat
  else if c = apos then aposPat
  else [c]

/-- Image of a character after quote and ampersand entities decoded. -/
def encC (c : Char) : Str :=
  if c = '<' then ltPat
  else if c = '>' then gtPat
  else if c = apos then aposPat
  else [c]

/-- Image of a character after quote, ampersand and less-than decoded. -/
def encD (c : Char) : Str :=
  if c = '>' then gtPat
  else if c = apos then aposPat
  else [c]

/-- Image of a character with only the apostrophe entity left. -/
def encE (c : Char) : Str :=
  if c = apos then aposPat
  else [c]

/-- Equality of failure-carrying outcomes is decidable, so concrete
pipeline runs can be evaluated inside proofs. -/
instance {ε α : Type} [DecidableEq ε] [DecidableEq α] : DecidableEq (Except ε α) := by
  intro a b
  cases a with
  | error e1 =>
    cases b with
    | error e2 =>
      exact if h : e1 = e2 then .isTrue (by rw [h]) else .isFalse (by simp [h])
    | ok a2 => exact .isFalse (by simp)
  | ok a1 =>
    cases b with
    | error e2 => exact .isFalse (by simp)
    | ok a2 =>
      exact if h : a1 = a2 then .isTrue (by rw [h]) else .isFalse (by simp [h])

/-- JavaScript or-else on an optional string with string falsiness (the
empty string is falsy), as used by the artist and title fallbacks. -/
def jsOrStr (a : Option Str) (b : Str) : Str :=
  match a with
  | some s => if s.isEmpty then b else s
  | none => b

/-- JavaScript or-else chain keeping the optional shape, as used by the
thumbnail fallbacks. -/
def jsOrOpt (a b : Option Str) : Option Str :=
  match a with
  | some s => if s.isEmpty then b else some s
  | none => b

/-- Presence of the mp3-128 stream field exactly as the source filters
use it: the optional chain through the file object followed by
JavaScript truthiness of the resulting string. -/
def hasStream (f : Option Str) : Bool :=
  match f with
  | some s => !s.isEmpty
  | none => false

/-- One entry of the decoded trackinfo sequence.  The field file_mp3_128
models the optional chain through the file object to the mp3-128 key;
track ids are numbers in the page data. -/
structure RawTrackInfo where
  track_id : Option Nat
  title : Str
  title_link : Option Str
  duration : Option ℚ
  track_num : Option Nat
  file_mp3_128 : Option Str
deriving DecidableEq

/-- The decoded tralbum record, restricted to the fields the plugin
reads.  A missing trackinfo field is modeled as the empty sequence. -/
structure TralbumData where
  artist : Option Str
  current_title : Option Str
  current_id : Option Nat
  artFullsizeUrl : Option Str
  artThumbURL : Option Str
  trackinfo : List RawTrackInfo
deriving DecidableEq

/-- The per-track record the plugin assembles (BandcampTrackInfo). -/
structure TrackRecord where
  id : Option Str
  title : Str
  artist : Str
  album : Option Str
  duration : ℚ
  url : Str
  thumbnail : Option Str
  streamUrl : Str
  trackNumber : Option Nat
deriving DecidableEq

/-- The album record the plugin assembles (BandcampAlbumInfo). -/
structure AlbumInfo where
  id : Str
  title : Str
  artist : Str
  url : Str
  thumbnail : Option Str
  tracks : List TrackRecord
deriving DecidableEq

/-- Decimal spelling of a number, as the toString call produces it. -/
def natStr (n : Nat) : Str := (Nat.repr n).data

/-- Everything the plugin can read off a fetched page: the decoded
tralbum record when the data attribute is present and decodes, and the
contents of the two meta tag fallbacks when their patterns match. -/
structure PageData where
  tralbum : Option TralbumData
  metaSiteName : Option Str
  metaImage : Option Str

/-- Artist fallback scan of the page markup (extractArtistFromMeta). -/
def extractArtistFromMeta (p : PageData) : Str :=
  match p.metaSiteName with
  | some s => s
  | none => strL "Unknown Artist"

/-- First component of the JavaScript split on a separator: the text
before the first occurrence, or the whole text when the separator is
absent. -/
def splitFirst (sep : Str) : Str → Str
  | [] => []
  | c :: rest =>
    if sep.isPrefixOf (c :: rest) && !sep.isEmpty then []
    else c :: splitFirst sep rest

/-- Per-track assembly of album-page parsing: the map body applied to
each filtered trackinfo entry. -/
def albumTrackInfo (artist : Str) (thumbnail : Option Str) (albumTitle : Option Str)
    (url : Str) (t : RawTrackInfo) : TrackRecord :=
  { id :=
      match t.track_id with
      | some n => some (natStr n)
      | none => t.title_link
    title := t.title
    artist := artist
    album := albumTitle
    duration :=
      match t.duration with
      | some d => d
      | none => 0
    url :=
      match t.title_link with
      | some s =>
        if s.isEmpty then url
        else splitFirst (strL "/album/") url ++ strL "/track/" ++ s
      | none => url
    thumbnail := thumbnail
    streamUrl :=
      match t.file_mp3_128 with
      | some s => s
      | none => []
    trackNumber := t.track_num }

/-- Album assembly from a decoded tralbum record: the body of
parseAlbumPage after the record is decoded.  Only entries with a stream
URL are kept, in page order. -/
def assembleAlbum (td : TralbumData) (p : PageData) (url : Str) : AlbumInfo :=
  { id :=
      match td.current_id with
      | some n => natStr n
      | none => url
    title := jsOrStr td.current_title (strL "Unknown Album")
    artist := jsOrStr td.artist (extractArtistFromMeta p)
    url := url
    thumbnail := jsOrOpt td.artFullsizeUrl (jsOrOpt td.artThumbURL p.metaImage)
    tracks := (td.trackinfo.filter (fun t => hasStream t.file_mp3_128)).map
      (albumTrackInfo (jsOrStr td.artist (extractArtistFromMeta p))
        (jsOrOpt td.artFullsizeUrl (jsOrOpt td.artThumbURL p.metaImage))
        td.current_title url) }

/-- Scheme test shared by the two normalization sites. -/
def schemed (s : Str) : Bool :=
  (strL "http://").isPrefixOf s || (strL "https://").isPrefixOf s

/-- Stream normalization of the BandcampSong constructor: a truthy
stream URL without a scheme gains the https scheme. -/
def songCtorStream (s : Str) : Str :=
  if !s.isEmpty && !schemed s then strL "https:" ++ s else s

/-- BandcampSong construction from an assembled info record: the stored
stream URL is the normalized one, the other fields pass through. -/
def mkBandcampSong (info : TrackRecord) : TrackRecord :=
  { info with streamUrl := songCtorStream info.streamUrl }

/-- BandcampAlbum construction: every track goes through the
BandcampSong constructor. -/
def mkBandcampAlbum (info : AlbumInfo) : AlbumInfo :=
  { info with tracks := info.tracks.map mkBandcampSong }

/-- Album-page parsing: fails when the data attribute is absent,
otherwise assembles the album (whose songs the album constructor builds
as BandcampSong values). -/
def parseAlbumPage (p : PageData) (url : Str) : Except Str AlbumInfo :=
  match p.tralbum with
  | none => .error (strL "Could not find album data on page")
  | some td => .ok (mkBandcampAlbum (assembleAlbum td p url))

/-- Track-page parsing (parseTrackPage): the first trackinfo entry is
the subject; a missing first entry or a first entry without an mp3-128
stream is an error. -/
def parseTrackPage (p : PageData) (url : Str) : Except Str TrackRecord :=
  match p.tralbum with
  | none => .error (strL "Could not find track data on page")
  | some td =>
    match td.trackinfo with
    | [] => .error (strL "Could not find MP3 stream URL")
    | t0 :: _ =>
      if hasStream t0.file_mp3_128 then
        .ok (mkBandcampSong
          { id :=
              match t0.track_id with
              | some n => some (natStr n)
              | none => t0.title_link
            title := t0.title
            artist := jsOrStr td.artist (extractArtistFromMeta p)
            album := td.current_title
            duration :=
              match t0.duration with
              | some d => d
              | none => 0
            url := url
            thumbnail := jsOrOpt td.artFullsizeUrl (jsOrOpt td.artThumbURL p.metaImage)
            streamUrl :=
              match t0.file_mp3_128 with
              | some s => s
              | none => []
            trackNumber := t0.track_num })
      else .error (strL "Could not find MP3 stream URL")

/-- The error taxonomy as observable through the DisTuneError codes the
plugin constructs. -/
inductive BCError where
  | invalidType (expected : Str)
  | noResult (msg : Str)
  | searchError (msg : Str)
  | resolveError (msg : Str)
  | invalidSong (msg : Str)
deriving DecidableEq

/-- The message carried by an error, what a catch block reads back when
re-wrapping. -/
def BCError.message : BCError → Str
  | .invalidType e => e
  | .noResult m => m
  | .searchError m => m
  | .resolveError m => m
  | .invalidSong m => m

/-- getStreamURL: reject a song without a stored stream URL, return a
schemed URL unchanged, otherwise prepend the https scheme text. -/
def getStreamURL (streamUrl : Str) : Except BCError Str :=
  if streamUrl.isEmpty then
    .error (.invalidSong (strL "Cannot get stream URL from invalid song."))
  else if !schemed streamUrl then .ok (strL "https:" ++ streamUrl)
  else .ok streamUrl

/-- The URL pieces the classifier inspects. -/
structure URLParts where
  hostname : Str
  pathname : Str
deriving DecidableEq

/-- Containment of a literal segment: the model of the JavaScript
includes test on strings. -/
def containsSeg (pat : Str) : Str → Bool
  | [] => pat.isEmpty
  | c :: rest => pat.isPrefixOf (c :: rest) || containsSeg pat rest

/-- The URL classifier (validate): parse the input through the platform
URL parser (an oracle whose failure models the thrown TypeError caught
by the classifier), then require a bandcamp subdomain host and a track
or album path segment.  The function is total: it never raises. -/
def validate (parse : Str → Option URLParts) (url : Str) : Bool :=
  match parse url with
  | none => false
  | some u =>
    (strL ".bandcamp.com").isSuffixOf u.hostname &&
      (containsSeg (strL "/track/") u.pathname || containsSeg (strL "/album/") u.pathname)

/-- Outcome of resolving a validated URL. -/
inductive Resolved where
  | song (t : TrackRecord)
  | album (a : AlbumInfo)
deriving DecidableEq

/-- The body of the try block of resolve: fetch the page, then dispatch
on the raw URL text. -/
def resolveInner (url : Str) (fetch : Str → Except Str PageData) : Except Str Resolved :=
  match fetch url with
  | .error e => .error e
  | .ok p =>
    if containsSeg (strL "/track/") url then
      match parseTrackPage p url with
      | .error e => .error e
      | .ok t => .ok (.song t)
    else if containsSeg (strL "/album/") url then
      match parseAlbumPage p url with
      | .error e => .error e
      | .ok a => .ok (.album a)
    else .error (strL "URL must be a track or album")

/-- The catch block of resolve: every failure of the try block is
re-wrapped into the source-tagged resolve error with the original
message. -/
def wrapResolveErr : Except Str Resolved → Except BCError Resolved
  | .error m => .error (.resolveError m)
  | .ok r => .ok r

/-- resolve: throw the invalid-type error on a URL failing
classification, before any fetch; otherwise run the pipeline under the
re-wrapping catch.  The second component is the trace of fetched
URLs. -/
def resolve (parse : Str → Option URLParts) (url : Str)
    (fetch : Str → Except Str PageData) : Except BCError Resolved × List Str :=
  if validate parse url then (wrapResolveErr (resolveInner url fetch), [url])
  else (.error (.invalidType (strL "Bandcamp URL")), [])

/-- One entry of the search endpoint response (the two fields the
pipeline reads). -/
structure RawResult where
  rtype : Str
  item_url_path : Option Str
deriving DecidableEq

/-- The candidate path when present and truthy: the per-candidate
closure fetches exactly when this is available. -/
def truthyPath (r : RawResult) : Option Str :=
  match r.item_url_path with
  | some u => if u.isEmpty then none else some u
  | none => none

/-- Outcome of one candidate of the fan-out: the parsed value when the
path is available and fetch plus parse succeed, otherwise the null the
per-candidate closure returns. -/
def candOutcome {α : Type} (f : Str → Except Str α) (r : RawResult) : Option α :=
  match truthyPath r with
  | none => none
  | some u => (f u).toOption

/-- Page fetches performed by one candidate of the fan-out. -/
def candFetch (r : RawResult) : List Str :=
  match truthyPath r with
  | none => []
  | some u => [u]

/-- Failures logged by one candidate of the fan-out. -/
def candLog {α : Type} (f : Str → Except Str α) (r : RawResult) : List Str :=
  match truthyPath r with
  | none => []
  | some u =>
    match f u with
    | .error e => [e]
    | .ok _ => []

/-- The fan-out and fan-in of the search pipeline: every candidate is
dispatched and its outcome recorded at its own index (the join of the
concurrent dispatch collects results by index, so candidate order is
preserved whatever the completion order), then the null placeholders of
failed candidates are filtered out.  The fetch and log traces are
collected alongside. -/
def fanOut {α : Type} (f : Str → Except Str α) (rs : List RawResult) :
    List α × List Str × List Str :=
  ((rs.map (candOutcome f)).filterMap id, rs.flatMap candFetch, rs.flatMap (candLog f))

/-- A JavaScript number. -/
inductive JSNum where
  | nan
  | posInf
  | negInf
  | finite (q : ℚ)
deriving DecidableEq

/-- A limit argument: possibly not a number at all. -/
inductive LimitArg where
  | nonNumber
  | number (n : JSNum)
deriving DecidableEq

/-- Comparison with one as the guard writes it; comparisons on the
not-a-number value are false. -/
def jsLtOne : JSNum → Bool
  | .nan => false
  | .posInf => false
  | .negInf => true
  | .finite q => decide (q < 1)

/-- The integer test of the guard. -/
def jsIsInteger : JSNum → Bool
  | .finite q => decide (q.den = 1)
  | _ => false

/-- The limit guard of searchSongs and searchAlbums, in source order:
not a number, or less than one, or not an integer. -/
def limitInvalid : LimitArg → Bool
  | .nonNumber => true
  | .number n => jsLtOne n || !jsIsInteger n

/-- The count of candidates the slice dispatches for a valid limit. -/
def limitToNat : LimitArg → Nat
  | .number (.finite q) => q.num.toNat
  | _ => 0

/-- Observable side effects of one search operation. -/
structure SearchEff where
  searchCalls : Nat
  fetched : List Str
  logged : List Str
deriving DecidableEq

/-- The try block of the search operations: report no result when the
response carries no candidates or none of the matching kind, otherwise
fan out over the first limit matching candidates. -/
def searchTry {α : Type} (f : Str → Except Str α) (tag : Str) (noResMsg : Str)
    (n : Nat) (resp : Option (List RawResult)) :
    Except BCError (List α) × List Str × List Str :=
  match resp with
  | none => (.error (.noResult noResMsg), [], [])
  | some results =>
    if results.isEmpty then (.error (.noResult noResMsg), [], [])
    else
      if (results.filter (fun r => r.rtype == tag)).isEmpty then
        (.error (.noResult noResMsg), [], [])
      else
        ((.ok (fanOut f ((results.filter (fun r => r.rtype == tag)).take n)).1),
          (fanOut f ((results.filter (fun r => r.rtype == tag)).take n)).2.1,
          (fanOut f ((results.filter (fun r => r.rtype == tag)).take n)).2.2)

/-- The catch block of the search operations: every failure of the try
block is re-wrapped into the source-tagged search error carrying the
original message. -/
def wrapSearchErr {α : Type} : Except BCError α → Except BCError α
  | .error e => .error (.searchError e.message)
  | .ok a => .ok a

/-- A search operation: the limit guard runs before the single search
endpoint call; the try block runs under the re-wrapping catch. -/
def searchPipeline {α : Type} (f : Str → Except Str α) (tag : Str) (noResMsg : Str)
    (limit : LimitArg) (resp : Option (List RawResult)) :
    Except BCError (List α) × SearchEff :=
  if limitInvalid limit then
    (.error (.invalidType (strL "natural number")), ⟨0, [], []⟩)
  else
    (wrapSearchErr (searchTry f tag noResMsg (limitToNat limit) resp).1,
      ⟨1, (searchTry f tag noResMsg (limitToNat limit) resp).2.1,
        (searchTry f tag noResMsg (limitToNat limit) resp).2.2⟩)

/-- The no-result message of the track search. -/
def songsNoResMsg (query : Str) : Str :=
  strL "Cannot find any " ++ (dq :: []) ++ query ++ (dq :: []) ++ strL " tracks on Bandcamp!"

/-- The no-result message of the album search. -/
def albumsNoResMsg (query : Str) : Str :=
  strL "Cannot find any " ++ (dq :: []) ++ query ++ (dq :: []) ++ strL " albums on Bandcamp!"

/-- searchSongs: search with the track result-kind tag; each surviving
candidate page parses into a track. -/
def searchSongs (query : Str) (limit : LimitArg) (resp : Option (List RawResult))
    (f : Str → Except Str TrackRecord) : Except BCError (List TrackRecord) × SearchEff :=
  searchPipeline f ('t' :: []) (songsNoResMsg query) limit resp

/-- searchAlbums: search with the album result-kind tag; each surviving
candidate page parses into an album. -/
def searchAlbums (query : Str) (limit : LimitArg) (resp : Option (List RawResult))
    (f : Str → Except Str AlbumInfo) : Except BCError (List AlbumInfo) × SearchEff :=
  searchPipeline f ('a' :: []) (albumsNoResMsg query) limit resp

/-- JavaScript strict equality between the numeric track id of a page
entry and the string id stored on a song: a number is never strictly
equal to a string, and two undefined values are strictly equal. -/
def jsIdEq : Option Nat → Option Str → Bool
  | none, none => true
  | _, _ => false

/-- Per-track assembly of the related-tracks lookup: its thumbnail chain
has no meta fallback and its track URLs are built from the containing
page URL. -/
def relatedTrackInfo (artist : Str) (thumbnail : Option Str) (albumTitle : Option Str)
    (baseUrl : Str) (t : RawTrackInfo) : TrackRecord :=
  { id :=
      match t.track_id with
      | some n => some (natStr n)
      | none => t.title_link
    title := t.title
    artist := artist
    album := albumTitle
    duration :=
      match t.duration with
      | some d => d
      | none => 0
    url :=
      match t.title_link with
      | some s => if s.isEmpty then baseUrl else baseUrl ++ strL "/track/" ++ s
      | none => baseUrl
    thumbnail := thumbnail
    streamUrl :=
      match t.file_mp3_128 with
      | some s => s
      | none => []
    trackNumber := t.track_num }

/-- getRelatedSongs: strip the track segment from the song URL, fetch
the containing page, and return up to ten entries that have a stream and
whose track id is strictly unequal to the stored song id; every failure
at any step yields the empty sequence. -/
def getRelatedSongs (songId : Option Str) (songUrl : Str)
    (fetch : Str → Except Str PageData) : List TrackRecord :=
  if songUrl.isEmpty then []
  else
    if (splitFirst (strL "/track/") songUrl).isEmpty then []
    else
      match fetch (splitFirst (strL "/track/") songUrl) with
      | .error _ => []
      | .ok p =>
        match p.tralbum with
        | none => []
        | some td =>
          ((td.trackinfo.filter
              (fun t => hasStream t.file_mp3_128 && !jsIdEq t.track_id songId)).take 10).map
            (fun t => mkBandcampSong
              (relatedTrackInfo (jsOrStr td.artist (extractArtistFromMeta p))
                (jsOrOpt td.artFullsizeUrl td.artThumbURL) td.current_title
                (splitFirst (strL "/track/") songUrl) t))

/-- A containing page for the related-tracks exhibit: its first entry is
the original track itself (numeric track id seven), the second another
track, both with streams. -/
def relBugTd : TralbumData :=
  { artist := some (strL "Artist")
    current_title := some (strL "Album")
    current_id := some 5
    artFullsizeUrl := none
    artThumbURL := none
    trackinfo :=
      [ { track_id := some 7
          title := strL "Original"
          title_link := some (strL "original")
          duration := some 100
          track_num := some 1
          file_mp3_128 := some (strL "//s/7") }
      , { track_id := some 8
          title := strL "Other"
          title_link := some (strL "other")
          duration := some 90
          track_num := some 2
          file_mp3_128 := some (strL "//s/8") } ] }

/-- Fetch oracle serving the containing page above for every URL. -/
def relBugFetch : Str → Except Str PageData :=
  fun _ => .ok { tralbum := some relBugTd, metaSiteName := none, metaImage := none }

/-- A concrete parsed track for the fan-out witness. -/
def trkA : TrackRecord :=
  { id := some (strL "1")
    title := strL "A"
    artist := strL "Ar"
    album := none
    duration := 1
    url := strL "u1"
    thumbnail := none
    streamUrl := strL "https://s/1"
    trackNumber := none }

/-- A parse oracle accepting the url1 page only. -/
def oneGoodParse : Str → Except Str TrackRecord :=
  fun u => if u = strL "u1" then .ok trkA else .error ('E' :: [])

/-- A URL parser oracle accepting everything as a bandcamp track URL. -/
def goodParse : Str → Option URLParts :=
  fun _ => some { hostname := strL "artist.bandcamp.com", pathname := strL "/track/x" }

/-- A fetch oracle that always fails. -/
def boomFetch : Str → Except Str PageData :=
  fun _ => .error (strL "boom")

/-- The pattern constants spell exactly the string literals of the
source code. -/
lemma pat_spelling :
    quotPat = strL "&quot;" ∧ ampPat = strL "&amp;" ∧ ltPat = strL "&lt;" ∧
      gtPat = strL "&gt;" ∧ aposPat = strL "&#39;" := by
  refine ⟨rfl, rfl, rfl, rfl, rfl⟩

/-- The fuel argument of the replacement worker is irrelevant once it
dominates the length of the scanned list. -/
lemma replaceAllF_congr (pat rep : Str) :
    ∀ (f1 f2 : Nat) (l : Str), l.length ≤ f1 → l.length ≤ f2 →
      replaceAllF pat rep f1 l = replaceAllF pat rep f2 l := by
  intro f1
  induction f1 with
  | zero =>
    intro f2 l h1 _
    have hl : l = [] := List.eq_nil_of_length_eq_zero (Nat.le_zero.mp h1)
    subst hl
    cases f2 <;> rfl
  | succ n ih =>
    intro f2 l h1 h2
    cases l with
    | nil => cases f2 <;> rfl
    | cons c rest =>
      cases f2 with
      | zero => simp at h2
      | succ m =>
        have h1' : rest.length ≤ n := Nat.le_of_succ_le_succ h1
        have h2' : rest.length ≤ m := Nat.le_of_succ_le_succ h2
        simp only [replaceAllF]
        by_cases hc : (pat.isPrefixOf (c :: rest) && !pat.isEmpty) = true
        · rw [if_pos hc, if_pos hc]
          have hd : (List.drop (pat.length - 1) rest).length ≤ rest.length := by
            rw [List.length_drop]
            exact Nat.sub_le _ _
          rw [ih m (List.drop (pat.length - 1) rest) (le_trans hd h1') (le_trans hd h2')]
        · rw [if_neg hc, if_neg hc, ih m rest h1' h2']

/-- Unfolding of the replacement at a matching position. -/
lemma replaceAll_cons_pos {pat rep : Str} {c : Char} {rest : Str}
    (h : (pat.isPrefixOf (c :: rest) && !pat.isEmpty) = true) :
    replaceAll pat rep (c :: rest) =
      rep ++ replaceAll pat rep (List.drop (pat.length - 1) rest) := by
  show replaceAllF pat rep (rest.length + 1) (c :: rest) = _
  simp only [replaceAllF]
  rw [if_pos h]
  congr 1
  exact replaceAllF_congr pat rep rest.length (List.drop (pat.length - 1) rest).length
    (List.drop (pat.length - 1) rest)
    (by rw [List.length_drop]; exact Nat.sub_le _ _) (le_refl _)

/-- Unfolding of the replacement at a non-matching position. -/
lemma replaceAll_cons_neg {pat rep : Str} {c : Char} {rest : Str}
    (h : (pat.isPrefixOf (c :: rest) && !pat.isEmpty) = false) :
    replaceAll pat rep (c :: rest) = c :: replaceAll pat rep rest := by
  show replaceAllF pat rep (rest.length + 1) (c :: rest) = _
  simp only [replaceAllF]
  rw [if_neg (by rw [h]; exact Bool.false_ne_true)]
  rfl

/-- A character differing from the head of the pattern is copied. -/
lemma replaceAll_skip {p0 : Char} {tl rep : Str} {c : Char} (h : c ≠ p0) (l : Str) :
    replaceAll (p0 :: tl) rep (c :: l) = c :: replaceAll (p0 :: tl) rep l := by
  apply replaceAll_cons_neg
  have hp : (p0 :: tl).isPrefixOf (c :: l) = false := by
    show ((p0 == c) && tl.isPrefixOf l) = false
    rw [beq_eq_false_iff_ne.mpr (fun e => h e.symm), Bool.false_and]
  rw [hp, Bool.false_and]

/-- A whole segment free of the pattern head character is copied. -/
lemma replaceAll_skip_all {p0 : Char} {tl rep : Str} :
    ∀ (bs l : Str), (∀ c ∈ bs, c ≠ p0) →
      replaceAll (p0 :: tl) rep (bs ++ l) = bs ++ replaceAll (p0 :: tl) rep l := by
  intro bs
  induction bs with
  | nil => intro l _; rfl
  | cons b bs ih =>
    intro l h
    rw [List.cons_append, replaceAll_skip (h b (List.mem_cons_self b bs)) (bs ++ l),
      ih l (fun c hc => h c (List.mem_cons_of_mem b hc)), List.cons_append]

/-- At an exact occurrence of the pattern, the replacement is emitted
and scanning resumes after the occurrence. -/
lemma replaceAll_step {p0 : Char} {tl rep : Str} (l : Str) :
    replaceAll (p0 :: tl) rep ((p0 :: tl) ++ l) = rep ++ replaceAll (p0 :: tl) rep l := by
  have hpre : (p0 :: tl).isPrefixOf ((p0 :: tl) ++ l) = true := by
    simp
  rw [List.cons_append]
  rw [replaceAll_cons_pos (by rw [List.cons_append] at hpre; rw [hpre]; rfl)]
  congr 1
  have hlen : (p0 :: tl).length - 1 = tl.length := by simp
  rw [hlen, List.drop_left]

/-- A mismatch at the second position refutes a prefix match whatever
follows. -/
lemma isPrefixOf_false2 {x y : Char} (h : (x == y) = false) (a b : Char) (as bs : Str) :
    List.isPrefixOf (a :: x :: as) (b :: y :: bs) = false := by
  show ((a == b) && ((x == y) && List.isPrefixOf as bs)) = false
  rw [h, Bool.false_and, Bool.and_false]

/-- An entity block differing from the pattern at its second character
is copied unchanged, whatever follows it. -/
lemma replaceAll_skip_block {p0 p1 x1 : Char} {ptl rep btl : Str}
    (hne : (p1 == x1) = false) (hx1 : x1 ≠ p0) (hbtl : ∀ c ∈ btl, c ≠ p0) (l : Str) :
    replaceAll (p0 :: p1 :: ptl) rep ((p0 :: x1 :: btl) ++ l) =
      (p0 :: x1 :: btl) ++ replaceAll (p0 :: p1 :: ptl) rep l := by
  rw [List.cons_append, List.cons_append]
  rw [replaceAll_cons_neg (by rw [isPrefixOf_false2 hne, Bool.false_and])]
  rw [replaceAll_skip hx1, replaceAll_skip_all btl l hbtl]
  rfl

/-- The ampersand entity block passes the quote-entity scan unchanged. -/
lemma blkQ_amp (l : Str) :
    replaceAll quotPat (dq :: []) (ampPat ++ l) = ampPat ++ replaceAll quotPat (dq :: []) l :=
  replaceAll_skip_block (by decide) (by decide) (by decide) l

/-- The less-than entity block passes the quote-entity scan unchanged. -/
lemma blkQ_lt (l : Str) :
    replaceAll quotPat (dq :: []) (ltPat ++ l) = ltPat ++ replaceAll quotPat (dq :: []) l :=
  replaceAll_skip_block (by decide) (by decide) (by decide) l

/-- The greater-than entity block passes the quote-entity scan unchanged. -/
lemma blkQ_gt (l : Str) :
    replaceAll quotPat (dq :: []) (gtPat ++ l) = gtPat ++ replaceAll quotPat (dq :: []) l :=
  replaceAll_skip_block (by decide) (by decide) (by decide) l

/-- The apostrophe entity block passes the quote-entity scan unchanged. -/
lemma blkQ_ap (l : Str) :
    replaceAll quotPat (dq :: []) (aposPat ++ l) = aposPat ++ replaceAll quotPat (dq :: []) l :=
  replaceAll_skip_block (by decide) (by decide) (by decide) l

/-- The less-than entity block passes the ampersand-entity scan
unchanged. -/
lemma blkA_lt (l : Str) :
    replaceAll ampPat ('&' :: []) (ltPat ++ l) = ltPat ++ replaceAll ampPat ('&' :: []) l :=
  replaceAll_skip_block (by decide) (by decide) (by decide) l

/-- The greater-than entity block passes the ampersand-entity scan
unchanged. -/
lemma blkA_gt (l : Str) :
    replaceAll ampPat ('&' :: []) (gtPat ++ l) = gtPat ++ replaceAll ampPat ('&' :: []) l :=
  replaceAll_skip_block (by decide) (by decide) (by decide) l

/-- The apostrophe entity block passes the ampersand-entity scan
unchanged. -/
lemma blkA_ap (l : Str) :
    replaceAll ampPat ('&' :: []) (aposPat ++ l) = aposPat ++ replaceAll ampPat ('&' :: []) l :=
  replaceAll_skip_block (by decide) (by decide) (by decide) l

/-- The greater-than entity block passes the less-than-entity scan
unchanged. -/
lemma blkL_gt (l : Str) :
    replaceAll ltPat ('<' :: []) (gtPat ++ l) = gtPat ++ replaceAll ltPat ('<' :: []) l :=
  replaceAll_skip_block (by decide) (by decide) (by decide) l

/-- The apostrophe entity block passes the less-than-entity scan
unchanged. -/
lemma blkL_ap (l : Str) :
    replaceAll ltPat ('<' :: []) (aposPat ++ l) = aposPat ++ replaceAll ltPat ('<' :: []) l :=
  replaceAll_skip_block (by decide) (by decide) (by decide) l

/-- The apostrophe entity block passes the greater-than-entity scan
unchanged. -/
lemma blkG_ap (l : Str) :
    replaceAll gtPat ('>' :: []) (aposPat ++ l) = aposPat ++ replaceAll gtPat ('>' :: []) l :=
  replaceAll_skip_block (by decide) (by decide) (by decide) l

/-- When every image of the character map is a singleton or starts with
an ampersand, an ampersand-free text that appears at the front of an
image list must already appear at the front of the source list. -/
lemma flatMap_pre_transfer (enc : Char → Str)
    (henc : ∀ c : Char, enc c = [c] ∨ ∃ p, enc c = '&' :: p) :
    ∀ (s x : Str), (∀ c ∈ s, c ≠ '&') →
      List.isPrefixOf s (x.flatMap enc) = true → List.isPrefixOf s x = true := by
  intro s
  induction s with
  | nil => intro x _ _; cases x <;> rfl
  | cons a s ih =>
    intro x hs hp
    cases x with
    | nil => exact Bool.noConfusion (show false = true from hp)
    | cons d x =>
      rw [List.flatMap_cons] at hp
      rcases henc d with hd | ⟨p, hd⟩
      · rw [hd, List.singleton_append] at hp
        have hp2 : ((a == d) && List.isPrefixOf s (x.flatMap enc)) = true := hp
        rw [Bool.and_eq_true] at hp2
        have hs' : ∀ c ∈ s, c ≠ '&' := fun c hc => hs c (List.mem_cons_of_mem a hc)
        show ((a == d) && List.isPrefixOf s x) = true
        rw [Bool.and_eq_true]
        exact ⟨hp2.1, ih x hs' hp2.2⟩
      · rw [hd] at hp
        have hp2 : ((a == '&') && List.isPrefixOf s (p ++ x.flatMap enc)) = true := hp
        rw [Bool.and_eq_true] at hp2
        exact absurd (eq_of_beq hp2.1) (hs a (List.mem_cons_self a s))

/-- Every image of the third-stage character map is a singleton or an
entity block starting with an ampersand. -/
lemma encC_blocks : ∀ c : Char, encC c = [c] ∨ ∃ p, encC c = '&' :: p := by
  intro c
  by_cases h1 : c = '<'
  · subst h1; exact Or.inr ⟨'l' :: 't' :: ';' :: [], rfl⟩
  by_cases h2 : c = '>'
  · subst h2; exact Or.inr ⟨'g' :: 't' :: ';' :: [], rfl⟩
  by_cases h3 : c = apos
  · subst h3; exact Or.inr ⟨'#' :: '3' :: '9' :: ';' :: [], rfl⟩
  · left
    simp only [encC, if_neg h1, if_neg h2, if_neg h3]

/-- Every image of the fourth-stage character map is a singleton or an
entity block starting with an ampersand. -/
lemma encD_blocks : ∀ c : Char, encD c = [c] ∨ ∃ p, encD c = '&' :: p := by
  intro c
  by_cases h2 : c = '>'
  · subst h2; exact Or.inr ⟨'g' :: 't' :: ';' :: [], rfl⟩
  by_cases h3 : c = apos
  · subst h3; exact Or.inr ⟨'#' :: '3' :: '9' :: ';' :: [], rfl⟩
  · left
    simp only [encD, if_neg h2, if_neg h3]

/-- Every image of the fifth-stage character map is a singleton or an
entity block starting with an ampersand. -/
lemma encE_blocks : ∀ c : Char, encE c = [c] ∨ ∃ p, encE c = '&' :: p := by
  intro c
  by_cases h3 : c = apos
  · subst h3; exact Or.inr ⟨'#' :: '3' :: '9' :: ';' :: [], rfl⟩
  · left
    simp only [encE, if_neg h3]

/-- First decode stage: undoing the quote entity on an encoded text
decodes exactly the encoded double quotes. -/
lemma stage_quot (x : Str) :
    replaceAll quotPat (dq :: []) (x.flatMap encChar) = x.flatMap encB := by
  induction x with
  | nil => rfl
  | cons c x ih =>
    rw [List.flatMap_cons, List.flatMap_cons]
    by_cases h1 : c = dq
    · subst h1
      rw [show encChar dq = quotPat from rfl, show encB dq = ([dq] : Str) from rfl,
        replaceAll_step, ih]
    by_cases h2 : c = '&'
    · subst h2
      rw [show encChar '&' = ampPat from rfl, show encB '&' = ampPat from rfl, blkQ_amp, ih]
    by_cases h3 : c = '<'
    · subst h3
      rw [show encChar '<' = ltPat from rfl, show encB '<' = ltPat from rfl, blkQ_lt, ih]
    by_cases h4 : c = '>'
    · subst h4
      rw [show encChar '>' = gtPat from rfl, show encB '>' = gtPat from rfl, blkQ_gt, ih]
    by_cases h5 : c = apos
    · subst h5
      rw [show encChar apos = aposPat from rfl, show encB apos = aposPat from rfl, blkQ_ap, ih]
    have ha : encChar c = [c] := by
      simp only [encChar, if_neg h2, if_neg h1, if_neg h3, if_neg h4, if_neg h5]
    have hb : encB c = [c] := by
      simp only [encB, if_neg h2, if_neg h3, if_neg h4, if_neg h5]
    rw [ha, hb, List.singleton_append, List.singleton_append, replaceAll_skip h2, ih]

/-- Second decode stage: undoing the ampersand entity on the remaining
text decodes exactly the encoded ampersands. -/
lemma stage_amp (x : Str) :
    replaceAll ampPat ('&' :: []) (x.flatMap encB) = x.flatMap encC := by
  induction x with
  | nil => rfl
  | cons c x ih =>
    rw [List.flatMap_cons, List.flatMap_cons]
    by_cases h2 : c = '&'
    · subst h2
      rw [show encB '&' = ampPat from rfl, show encC '&' = (['&'] : Str) from rfl,
        replaceAll_step, ih]
    by_cases h3 : c = '<'
    · subst h3
      rw [show encB '<' = ltPat from rfl, show encC '<' = ltPat from rfl, blkA_lt, ih]
    by_cases h4 : c = '>'
    · subst h4
      rw [show encB '>' = gtPat from rfl, show encC '>' = gtPat from rfl, blkA_gt, ih]
    by_cases h5 : c = apos
    · subst h5
      rw [show encB apos = aposPat from rfl, show encC apos = aposPat from rfl, blkA_ap, ih]
    have ha : encB c = [c] := by
      simp only [encB, if_neg h2, if_neg h3, if_neg h4, if_neg h5]
    have hb : encC c = [c] := by
      simp only [encC, if_neg h3, if_neg h4, if_neg h5]
    rw [ha, hb, List.singleton_append, List.singleton_append, replaceAll_skip h2, ih]

/-- Third decode stage: undoing the less-than entity decodes exactly the
encoded less-than signs, provided the source text does not itself spell
the less-than entity. -/
lemma stage_lt : ∀ x : Str, ¬ ltPat <:+: x →
    replaceAll ltPat ('<' :: []) (x.flatMap encC) = x.flatMap encD := by
  intro x
  induction x with
  | nil => intro _; rfl
  | cons c x ih =>
    intro h
    have h' : ¬ ltPat <:+: x := fun hin => h (List.infix_cons hin)
    rw [List.flatMap_cons, List.flatMap_cons]
    by_cases h1 : c = '<'
    · subst h1
      rw [show encC '<' = ltPat from rfl, show encD '<' = (['<'] : Str) from rfl,
        replaceAll_step, ih h']
    by_cases h2 : c = '>'
    · subst h2
      rw [show encC '>' = gtPat from rfl, show encD '>' = gtPat from rfl, blkL_gt, ih h']
    by_cases h3 : c = apos
    · subst h3
      rw [show encC apos = aposPat from rfl, show encD apos = aposPat from rfl, blkL_ap, ih h']
    have ha : encC c = [c] := by
      simp only [encC, if_neg h1, if_neg h2, if_neg h3]
    have hb : encD c = [c] := by
      simp only [encD, if_neg h2, if_neg h3]
    by_cases h4 : c = '&'
    · subst h4
      rw [ha, hb, List.singleton_append, List.singleton_append]
      cases hp : List.isPrefixOf ('l' :: 't' :: ';' :: []) (x.flatMap encC) with
      | true =>
        exfalso
        have htr := flatMap_pre_transfer encC encC_blocks ('l' :: 't' :: ';' :: []) x
          (by decide) hp
        have hpre : ('l' :: 't' :: ';' :: []) <+: x := by simpa using htr
        obtain ⟨t, ht⟩ := hpre
        exact h ⟨[], t, by rw [← ht]; rfl⟩
      | false =>
        rw [replaceAll_cons_neg (by
          show ((('&' == '&') && List.isPrefixOf ('l' :: 't' :: ';' :: []) (x.flatMap encC))
              && !ltPat.isEmpty) = false
          rw [hp, Bool.and_false, Bool.false_and])]
        rw [ih h']
    · rw [ha, hb, List.singleton_append, List.singleton_append, replaceAll_skip h4, ih h']

/-- Fourth decode stage: undoing the greater-than entity decodes exactly
the encoded greater-than signs, provided the source text does not itself
spell the greater-than entity. -/
lemma stage_gt : ∀ x : Str, ¬ gtPat <:+: x →
    replaceAll gtPat ('>' :: []) (x.flatMap encD) = x.flatMap encE := by
  intro x
  induction x with
  | nil => intro _; rfl
  | cons c x ih =>
    intro h
    have h' : ¬ gtPat <:+: x := fun hin => h (List.infix_cons hin)
    rw [List.flatMap_cons, List.flatMap_cons]
    by_cases h2 : c = '>'
    · subst h2
      rw [show encD '>' = gtPat from rfl, show encE '>' = (['>'] : Str) from rfl,
        replaceAll_step, ih h']
    by_cases h3 : c = apos
    · subst h3
      rw [show encD apos = aposPat from rfl, show encE apos = aposPat from rfl, blkG_ap, ih h']
    have ha : encD c = [c] := by
      simp only [encD, if_neg h2, if_neg h3]
    have hb : encE c = [c] := by
      simp only [encE, if_neg h3]
    by_cases h4 : c = '&'
    · subst h4
      rw [ha, hb, List.singleton_append, List.singleton_append]
      cases hp : List.isPrefixOf ('g' :: 't' :: ';' :: []) (x.flatMap encD) with
      | true =>
        exfalso
        have htr := flatMap_pre_transfer encD encD_blocks ('g' :: 't' :: ';' :: []) x
          (by decide) hp
        have hpre : ('g' :: 't' :: ';' :: []) <+: x := by simpa using htr
        obtain ⟨t, ht⟩ := hpre
        exact h ⟨[], t, by rw [← ht]; rfl⟩
      | false =>
        rw [replaceAll_cons_neg (by
          show ((('&' == '&') && List.isPrefixOf ('g' :: 't' :: ';' :: []) (x.flatMap encD))
              && !gtPat.isEmpty) = false
          rw [hp, Bool.and_false, Bool.false_and])]
        rw [ih h']
    · rw [ha, hb, List.singleton_append, List.singleton_append, replaceAll_skip h4, ih h']

/-- Fifth decode stage: undoing the numeric apostrophe entity restores
the source text, provided the source text does not itself spell that
entity. -/
lemma stage_apos : ∀ x : Str, ¬ aposPat <:+: x →
    replaceAll aposPat (apos :: []) (x.flatMap encE) = x := by
  intro x
  induction x with
  | nil => intro _; rfl
  | cons c x ih =>
    intro h
    have h' : ¬ aposPat <:+: x := fun hin => h (List.infix_cons hin)
    rw [List.flatMap_cons]
    by_cases h3 : c = apos
    · subst h3
      rw [show encE apos = aposPat from rfl, replaceAll_step, ih h']
      rfl
    have ha : encE c = [c] := by
      simp only [encE, if_neg h3]
    by_cases h4 : c = '&'
    · subst h4
      rw [ha, List.singleton_append]
      cases hp : List.isPrefixOf ('#' :: '3' :: '9' :: ';' :: []) (x.flatMap encE) with
      | true =>
        exfalso
        have htr := flatMap_pre_transfer encE encE_blocks ('#' :: '3' :: '9' :: ';' :: []) x
          (by decide) hp
        have hpre : ('#' :: '3' :: '9' :: ';' :: []) <+: x := by simpa using htr
        obtain ⟨t, ht⟩ := hpre
        exact h ⟨[], t, by rw [← ht]; rfl⟩
      | false =>
        rw [replaceAll_cons_neg (by
          show ((('&' == '&') && List.isPrefixOf ('#' :: '3' :: '9' :: ';' :: []) (x.flatMap encE))
              && !aposPat.isEmpty) = false
          rw [hp, Bool.and_false, Bool.false_and])]
        rw [ih h']
    · rw [ha, List.singleton_append, replaceAll_skip h4, ih h']

/-- C3 (counterexample): decoding the encoding of the four-character
text spelling the less-than entity yields the one-character less-than
text, not the original: the ampersand entity is decoded before the
less-than entity, so the decoded ampersand recreates a less-than entity
that the later stage wrongly decodes. -/
theorem entityDecode_cex :
    entityDecode (htmlEncode (strL "&lt;")) = strL "<" ∧
      entityDecode (htmlEncode (strL "&lt;")) ≠ strL "&lt;" := by
  decide

/-- C3 (amended): on texts that do not themselves spell the less-than,
greater-than or numeric apostrophe entity, the five-replacement entity
decode of the source, applied in source order to the HTML entity
encoding of the text, reconstructs the text exactly. -/
theorem entityDecode_round (x : Str) (h1 : ¬ ltPat <:+: x) (h2 : ¬ gtPat <:+: x)
    (h3 : ¬ aposPat <:+: x) : entityDecode (htmlEncode x) = x := by
  show replaceAll aposPat (apos :: [])
      (replaceAll gtPat ('>' :: [])
        (replaceAll ltPat ('<' :: [])
          (replaceAll ampPat ('&' :: [])
            (replaceAll quotPat (dq :: []) (x.flatMap encChar))))) = x
  rw [stage_quot, stage_amp, stage_lt x h1, stage_gt x h2, stage_apos x h3]

/-- C3 (witness): the round trip at a concrete text containing all five
encoded characters. -/
theorem entityDecode_round_w :
    entityDecode (htmlEncode (strL "a<b>c & d" ++ (dq :: []) ++ (apos :: []))) =
      strL "a<b>c & d" ++ (dq :: []) ++ (apos :: []) :=
  entityDecode_round (strL "a<b>c & d" ++ (dq :: []) ++ (apos :: [])) (by decide) (by decide)
    (by decide)

/-- The head of a filtered list is its first qualifying element. -/
lemma filter_head?_find {α : Type} (p : α → Bool) (l : List α) :
    (l.filter p).head? = l.find? p := by
  induction l with
  | nil => rfl
  | cons a l ih =>
    by_cases h : p a
    · simp [List.filter_cons, List.find?_cons, h]
    · simp [List.filter_cons, List.find?_cons, h, ih]

/-- C2: album assembly keeps exactly the trackinfo entries possessing an
mp3-128 stream, in page order (the kept entries are a sublist of the
original sequence, never re-sorted), the track count equals the number
of qualifying entries, and the first track is assembled from the first
qualifying entry. -/
theorem assembleAlbum_tracks (td : TralbumData) (p : PageData) (url : Str) :
    (assembleAlbum td p url).tracks =
        (td.trackinfo.filter (fun t => hasStream t.file_mp3_128)).map
          (albumTrackInfo (jsOrStr td.artist (extractArtistFromMeta p))
            (jsOrOpt td.artFullsizeUrl (jsOrOpt td.artThumbURL p.metaImage))
            td.current_title url) ∧
      (td.trackinfo.filter (fun t => hasStream t.file_mp3_128)).Sublist td.trackinfo ∧
      (assembleAlbum td p url).tracks.length =
        (td.trackinfo.filter (fun t => hasStream t.file_mp3_128)).length ∧
      (assembleAlbum td p url).tracks.head? =
        (td.trackinfo.find? (fun t => hasStream t.file_mp3_128)).map
          (albumTrackInfo (jsOrStr td.artist (extractArtistFromMeta p))
            (jsOrOpt td.artFullsizeUrl (jsOrOpt td.artThumbURL p.metaImage))
            td.current_title url) := by
  have htr : (assembleAlbum td p url).tracks =
      (td.trackinfo.filter (fun t => hasStream t.file_mp3_128)).map
        (albumTrackInfo (jsOrStr td.artist (extractArtistFromMeta p))
          (jsOrOpt td.artFullsizeUrl (jsOrOpt td.artThumbURL p.metaImage))
          td.current_title url) := rfl
  refine ⟨htr, List.filter_sublist _, ?_, ?_⟩
  · rw [htr, List.length_map]
  · rw [htr, List.head?_map, filter_head?_find]

/-- C5 (counterexample): on the stored stream URL consisting of the
single letter x (which lacks a scheme), getStreamURL returns that text
with https and a colon prepended, and the result does not begin with the
https scheme followed by two slashes. -/
theorem getStreamURL_cex :
    getStreamURL (strL "x") = .ok (strL "https:x") ∧
      (strL "https://").isPrefixOf (strL "https:x") = false := by
  decide

/-- The empty pattern is at the front of everything. -/
lemma isPrefixOf_nil (l : Str) : List.isPrefixOf ([] : Str) l = true := by
  cases l <;> rfl

/-- C5 (amended): a schemed stored stream URL is returned unchanged by
getStreamURL (hence a second application returns the same value), and a
nonempty unschemed one is returned with the https scheme text prepended,
which begins with the full https scheme exactly when the stored value is
protocol relative (begins with two slashes). -/
theorem getStreamURL_norm (s : Str) :
    (schemed s = true → getStreamURL s = .ok s) ∧
      (s.isEmpty = false → schemed s = false →
        getStreamURL s = .ok (strL "https:" ++ s) ∧
          ((strL "//").isPrefixOf s = true →
            (strL "https://").isPrefixOf (strL "https:" ++ s) = true)) := by
  constructor
  · intro hs
    have hne : s.isEmpty = false := by
      cases s with
      | nil => exact absurd hs (by decide)
      | cons c l => rfl
    simp [getStreamURL, hne, hs]
  · intro hne hs
    constructor
    · simp [getStreamURL, hne, hs]
    · intro hps
      have hpre : (strL "//") <+: s := by simpa using hps
      obtain ⟨t, ht⟩ := hpre
      rw [← ht]
      exact isPrefixOf_nil t

/-- C5 (witness): normalization of a concrete protocol-relative stored
stream URL through getStreamURL. -/
theorem getStreamURL_norm_w :
    getStreamURL (strL "//cdn.example/x.mp3") = .ok (strL "https://cdn.example/x.mp3") ∧
      (strL "https://").isPrefixOf (strL "https://cdn.example/x.mp3") = true := by
  have h := (getStreamURL_norm (strL "//cdn.example/x.mp3")).2 (by decide) (by decide)
  constructor
  · rw [h.1]
    decide
  · exact h.2 (by decide)

/-- C6 (code bug): the related-tracks lookup for a song whose stored id
is the string seven, over a containing page whose first entry is that
very track (numeric track id seven), returns the original track among
the results: the strict inequality between the numeric page id and the
string song id never excludes anything. -/
theorem getRelatedSongs_retains_original :
    (getRelatedSongs (some (strL "7")) (strL "https://a.bandcamp.com/track/original")
        relBugFetch).map (fun t => t.id) = [some (strL "7"), some (strL "8")] := by
  decide

/-- The segment containment test decides the infix relation. -/
lemma containsSeg_iff (pat : Str) : ∀ l : Str, containsSeg pat l = true ↔ pat <:+: l := by
  intro l
  induction l with
  | nil =>
    show pat.isEmpty = true ↔ pat <:+: []
    constructor
    · intro h
      have hp : pat = [] := by simpa using h
      subst hp
      exact ⟨[], [], rfl⟩
    · intro h
      have hp : pat = [] := by simpa using h
      simp [hp]
  | cons c l ih =>
    show (pat.isPrefixOf (c :: l) || containsSeg pat l) = true ↔ pat <:+: c :: l
    rw [Bool.or_eq_true, ih]
    constructor
    · rintro (h | h)
      · have hp : pat <+: c :: l := by simpa using h
        obtain ⟨t, ht⟩ := hp
        exact ⟨[], t, by simpa using ht⟩
      · exact List.infix_cons h
    · rintro ⟨s, t, hst⟩
      cases s with
      | nil =>
        left
        have hp : pat <+: c :: l := ⟨t, by simpa using hst⟩
        simpa using hp
      | cons a s =>
        right
        have hst' : a :: (s ++ pat ++ t) = c :: l := hst
        have h2 : s ++ pat ++ t = l := by
          simp only [List.cons.injEq] at hst'
          exact hst'.2
        exact ⟨s, t, h2⟩

/-- C7: classification succeeds exactly on inputs the URL parser
accepts whose host ends with the bandcamp subdomain suffix and whose
path contains a track or album segment; on a parse failure (malformed
input) it returns false, and being a total function it never raises. -/
theorem validate_spec (parse : Str → Option URLParts) (url : Str) :
    (validate parse url = true ↔
        ∃ u, parse url = some u ∧ (strL ".bandcamp.com") <:+ u.hostname ∧
          ((strL "/track/") <:+: u.pathname ∨ (strL "/album/") <:+: u.pathname)) ∧
      (parse url = none → validate parse url = false) := by
  constructor
  · cases hp : parse url with
    | none => simp [validate, hp]
    | some u => simp [validate, hp, containsSeg_iff]
  · intro hp
    simp [validate, hp]

/-- C7 (witness): a malformed input rejected by the URL parser is
classified false. -/
theorem validate_spec_w : validate (fun _ => none) (strL "not a url") = false :=
  (validate_spec (fun _ => none) (strL "not a url")).2 rfl

/-- C10: a URL failing classification is rejected with the invalid-type
error before any fetch and that error is not the source-tagged resolve
error; when classification passes, exactly one fetch is issued and a
failure of the pipeline is observed as the source-tagged resolve error
carrying the inner message; and the resolve error shape arises only that
way. -/
theorem resolve_error_layering (parse : Str → Option URLParts) (url : Str)
    (fetch : Str → Except Str PageData) :
    (validate parse url = false →
        resolve parse url fetch = (.error (.invalidType (strL "Bandcamp URL")), []) ∧
          ∀ m, (resolve parse url fetch).1 ≠ .error (.resolveError m)) ∧
      (validate parse url = true →
        (resolve parse url fetch).2 = [url] ∧
          ∀ m, resolveInner url fetch = .error m →
            (resolve parse url fetch).1 = .error (.resolveError m)) ∧
      (∀ m, (resolve parse url fetch).1 = .error (.resolveError m) →
        validate parse url = true ∧ resolveInner url fetch = .error m) := by
  refine ⟨?_, ?_, ?_⟩
  · intro hv
    have hr : resolve parse url fetch = (.error (.invalidType (strL "Bandcamp URL")), []) := by
      simp [resolve, hv]
    refine ⟨hr, fun m hm => ?_⟩
    rw [hr] at hm
    simp at hm
  · intro hv
    refine ⟨by simp [resolve, hv], fun m hm => ?_⟩
    simp [resolve, hv, hm, wrapResolveErr]
  · intro m hm
    by_cases hv : validate parse url = true
    · refine ⟨hv, ?_⟩
      cases hri : resolveInner url fetch with
      | error e =>
        have : (resolve parse url fetch).1 = .error (.resolveError e) := by
          simp [resolve, hv, hri, wrapResolveErr]
        rw [this] at hm
        simp only [Except.error.injEq, BCError.resolveError.injEq] at hm
        rw [hm]
      | ok r =>
        have : (resolve parse url fetch).1 = .ok r := by
          simp [resolve, hv, hri, wrapResolveErr]
        rw [this] at hm
        simp at hm
    · exfalso
      have hf : validate parse url = false := by simpa using hv
      have : (resolve parse url fetch).1 = .error (.invalidType (strL "Bandcamp URL")) := by
        simp [resolve, hf]
      rw [this] at hm
      simp at hm

/-- C10 (witness): with an always-accepting parser and a failing fetch,
resolve issues the one fetch and wraps the failure message in the
resolve error. -/
theorem resolve_error_layering_w :
    resolve goodParse (strL "https://artist.bandcamp.com/track/x") boomFetch =
      (.error (.resolveError (strL "boom")), [strL "https://artist.bandcamp.com/track/x"]) := by
  have h := (resolve_error_layering goodParse
    (strL "https://artist.bandcamp.com/track/x") boomFetch).2.1 (by decide)
  have h1 := h.2 (strL "boom") (by decide)
  exact Prod.ext h1 h.1

/-- C8: a limit that is not a positive integer number is rejected by
both search operations with the invalid-type error before any network
activity: no search-endpoint call and no page fetch happen. -/
theorem limit_guard (query : Str) (limit : LimitArg)
    (resp : Option (List RawResult)) (ft : Str → Except Str TrackRecord)
    (fa : Str → Except Str AlbumInfo)
    (h : ∀ q : ℚ, limit = .number (.finite q) → ¬(q.den = 1 ∧ 1 ≤ q)) :
    searchSongs query limit resp ft =
        (.error (.invalidType (strL "natural number")), ⟨0, [], []⟩) ∧
      searchAlbums query limit resp fa =
        (.error (.invalidType (strL "natural number")), ⟨0, [], []⟩) := by
  have hinv : limitInvalid limit = true := by
    cases limit with
    | nonNumber => rfl
    | number n =>
      cases n with
      | nan => rfl
      | posInf => rfl
      | negInf => rfl
      | finite q =>
        have hq := h q rfl
        show (jsLtOne (.finite q) || !jsIsInteger (.finite q)) = true
        rw [Bool.or_eq_true]
        by_cases hden : q.den = 1
        · left
          show decide (q < 1) = true
          simp only [decide_eq_true_eq]
          exact not_le.mp (fun hle => hq ⟨hden, hle⟩)
        · right
          show (!decide (q.den = 1)) = true
          simp [hden]
  constructor
  · unfold searchSongs searchPipeline
    rw [if_pos hinv]
  · unfold searchAlbums searchPipeline
    rw [if_pos hinv]

/-- C8 (witness): the not-a-number limit is rejected by both search
operations without any network activity. -/
theorem limit_guard_w :
    searchSongs (strL "q") (.number .nan) none (fun _ => .error ('E' :: [])) =
        (.error (.invalidType (strL "natural number")), ⟨0, [], []⟩) ∧
      searchAlbums (strL "q") (.number .nan) none (fun _ => .error ('E' :: [])) =
        (.error (.invalidType (strL "natural number")), ⟨0, [], []⟩) :=
  limit_guard (strL "q") (.number .nan) none (fun _ => .error ('E' :: []))
    (fun _ => .error ('E' :: [])) (by intro q hq; simp at hq)

/-- C4 (counterexample): a query whose response has candidates of the
wrong kind only makes searchSongs fail, but with the source-tagged
search error wrapping the no-result message, not with the no-result
error itself: the no-result throw happens inside the try block whose
catch re-wraps every error. -/
theorem searchSongs_noResult_cex :
    (searchSongs (strL "q") (.number (.finite 1))
          (some [{ rtype := 'a' :: [], item_url_path := some (strL "/x") }])
          (fun _ => .error ('E' :: []))).1 =
        .error (.searchError (songsNoResMsg (strL "q"))) ∧
      (searchSongs (strL "q") (.number (.finite 1))
          (some [{ rtype := 'a' :: [], item_url_path := some (strL "/x") }])
          (fun _ => .error ('E' :: []))).1 ≠
        .error (.noResult (songsNoResMsg (strL "q"))) := by
  decide

/-- C4 (amended): whenever the endpoint response, after filtering by the
track result-kind tag, has zero candidates (including a missing or empty
response), searchSongs fails: internally the no-result error is raised,
and the caller observes the source-tagged search error carrying the
no-result message, re-wrapped by the top-level catch. -/
theorem searchSongs_noResult_wrapped (query : Str) (limit : LimitArg)
    (resp : Option (List RawResult)) (f : Str → Except Str TrackRecord)
    (hl : limitInvalid limit = false)
    (hempty : resp = none ∨ ∃ results, resp = some results ∧
      results.filter (fun r => r.rtype == 't' :: []) = []) :
    (searchSongs query limit resp f).1 =
      .error (.searchError (songsNoResMsg query)) := by
  have ht : (searchTry f ('t' :: []) (songsNoResMsg query) (limitToNat limit) resp).1 =
      .error (.noResult (songsNoResMsg query)) := by
    rcases hempty with h | ⟨results, hr, hfil⟩
    · subst h
      rfl
    · subst hr
      simp only [searchTry]
      by_cases hres : results.isEmpty
      · rw [if_pos hres]
      · rw [if_neg hres, if_pos (by rw [hfil]; rfl)]
  unfold searchSongs searchPipeline
  rw [if_neg (by simp [hl])]
  show wrapSearchErr (searchTry f ('t' :: []) (songsNoResMsg query) (limitToNat limit) resp).1 = _
  rw [ht]
  rfl

/-- C4 (witness): a missing response body observed as the wrapped
no-result failure at a concrete query. -/
theorem searchSongs_noResult_wrapped_w :
    (searchSongs (strL "q") (.number (.finite 1)) none (fun _ => .error ('E' :: []))).1 =
      .error (.searchError (songsNoResMsg (strL "q"))) :=
  searchSongs_noResult_wrapped (strL "q") (.number (.finite 1)) none
    (fun _ => .error ('E' :: [])) (by decide) (Or.inl rfl)

/-- With a valid limit and a nonempty filtered candidate list, the
search pipeline returns the filterMap of the per-candidate outcomes over
the dispatched window. -/
lemma searchPipeline_fanout {α : Type} (f : Str → Except Str α) (tag msg : Str)
    (limit : LimitArg) (results : List RawResult)
    (hl : limitInvalid limit = false)
    (hf : results.filter (fun r => r.rtype == tag) ≠ []) :
    (searchPipeline f tag msg limit (some results)).1 =
      .ok (((results.filter (fun r => r.rtype == tag)).take
        (limitToNat limit)).filterMap (candOutcome f)) := by
  have hres : results.isEmpty = false := by
    cases results with
    | nil => exact absurd (rfl : ([] : List RawResult) = []) (by exact hf)
    | cons a l => rfl
  have hfil : (results.filter (fun r => r.rtype == tag)).isEmpty = false := by
    cases hc : results.filter (fun r => r.rtype == tag) with
    | nil => exact absurd hc hf
    | cons a l => rfl
  unfold searchPipeline
  rw [if_neg (by simp [hl])]
  simp only [searchTry]
  rw [if_neg (by simp [hres]), if_neg (by simp [hfil])]
  show Except.ok ((((results.filter (fun r => r.rtype == tag)).take
      (limitToNat limit)).map (candOutcome f)).filterMap id) = _
  rw [List.filterMap_map]
  rfl

/-- C1: with a valid limit and a nonempty filtered candidate list, both
search operations return (never throw) exactly the successfully parsed
candidates of the dispatched window, as a filterMap over the filtered
candidate list in its original order: failing candidates are dropped in
place, order is the dispatch order (not completion order), and when
every dispatched candidate fails the result is the empty list, not an
error. -/
theorem search_partial_failure (query : Str) (limit : LimitArg)
    (results : List RawResult) (ft : Str → Except Str TrackRecord)
    (fa : Str → Except Str AlbumInfo) (hl : limitInvalid limit = false) :
    (results.filter (fun r => r.rtype == 't' :: []) ≠ [] →
      (searchSongs query limit (some results) ft).1 =
          .ok (((results.filter (fun r => r.rtype == 't' :: [])).take
            (limitToNat limit)).filterMap (candOutcome ft)) ∧
        ((∀ r ∈ (results.filter (fun r => r.rtype == 't' :: [])).take (limitToNat limit),
            candOutcome ft r = none) →
          (searchSongs query limit (some results) ft).1 = .ok [])) ∧
    (results.filter (fun r => r.rtype == 'a' :: []) ≠ [] →
      (searchAlbums query limit (some results) fa).1 =
          .ok (((results.filter (fun r => r.rtype == 'a' :: [])).take
            (limitToNat limit)).filterMap (candOutcome fa)) ∧
        ((∀ r ∈ (results.filter (fun r => r.rtype == 'a' :: [])).take (limitToNat limit),
            candOutcome fa r = none) →
          (searchAlbums query limit (some results) fa).1 = .ok [])) := by
  constructor
  · intro hf
    have hmain := searchPipeline_fanout ft ('t' :: []) (songsNoResMsg query) limit results hl hf
    refine ⟨hmain, fun hall => ?_⟩
    rw [show (searchSongs query limit (some results) ft).1 =
      (searchPipeline ft ('t' :: []) (songsNoResMsg query) limit (some results)).1 from rfl]
    rw [hmain, List.filterMap_eq_nil_iff.mpr hall]
  · intro hf
    have hmain := searchPipeline_fanout fa ('a' :: []) (albumsNoResMsg query) limit results hl hf
    refine ⟨hmain, fun hall => ?_⟩
    rw [show (searchAlbums query limit (some results) fa).1 =
      (searchPipeline fa ('a' :: []) (albumsNoResMsg query) limit (some results)).1 from rfl]
    rw [hmain, List.filterMap_eq_nil_iff.mpr hall]

/-- C1 (witness): of two dispatched track candidates one fails to fetch
and is dropped in place; the surviving parse is returned alone, with no
error. -/
theorem search_partial_failure_w :
    (searchSongs (strL "q") (.number (.finite 10))
        (some [{ rtype := 't' :: [], item_url_path := some (strL "u1") },
          { rtype := 't' :: [], item_url_path := some (strL "u2") },
          { rtype := 'a' :: [], item_url_path := some (strL "u3") }])
        oneGoodParse).1 = .ok [trkA] := by
  have h := ((search_partial_failure (strL "q") (.number (.finite 10))
    [{ rtype := 't' :: [], item_url_path := some (strL "u1") },
      { rtype := 't' :: [], item_url_path := some (strL "u2") },
      { rtype := 'a' :: [], item_url_path := some (strL "u3") }]
    oneGoodParse (fun _ => .error ('E' :: [])) (by decide)).1 (by decide)).1
  rw [h]
  decide

/-- C9: a candidate without a URL path fragment is skipped silently by
the fan-out shared by both search operations: inserting it anywhere
changes nothing observable, neither the parsed results nor the fetch
trace nor the failure log (so no page fetch happens for it and it is not
reported as a failure). -/
theorem fanOut_skips_pathless {α : Type} (f : Str → Except Str α)
    (a b : List RawResult) (r : RawResult) (h : r.item_url_path = none) :
    fanOut f (a ++ r :: b) = fanOut f (a ++ b) := by
  have hpath : truthyPath r = none := by
    rw [truthyPath, h]
  simp [fanOut, List.map_append, List.filterMap_append, List.flatMap_append,
    candOutcome, candFetch, candLog, hpath]

/-- C9 (witness): inserting a concrete pathless candidate between two
candidates changes nothing observable about the fan-out. -/
theorem fanOut_skips_pathless_w :
    fanOut oneGoodParse
        ([{ rtype := 't' :: [], item_url_path := some (strL "u1") }] ++
          { rtype := 't' :: [], item_url_path := none } ::
            [{ rtype := 't' :: [], item_url_path := some (strL "u2") }]) =
      fanOut oneGoodParse
        ([{ rtype := 't' :: [], item_url_path := some (strL "u1") }] ++
          [{ rtype := 't' :: [], item_url_path := some (strL "u2") }]) :=
  fanOut_skips_pathless oneGoodParse _ _ _ rfl

end Bandcamp
